import Mathlib

/-!
Verification development for the Betaflight configuration converter
(extras/betaflight_converter).  The Python sources are shallowly embedded:

* `betaflight_config.py` — `ResourcePin`, `TimerAssignment`, the
  `BetaflightConfig` accessors (`get_resources`, `get_spi_pins`,
  `get_i2c_pins`, `get_uart_pins`, `convert_pin_format`) and the
  line-kind parsing of `_parse_timer` (the `timer ... AF<n>` structural
  line and the `# pin ...: ... CH<n>` comment line).
* `peripheral_pins.py` — the pin-capability records and the lookup
  methods `validate_timer`, `get_uart`, `get_pin_for_spi_bus`,
  `get_pin_for_i2c_bus`, `get_pin_for_uart`.
* `validator.py` — `ConfigValidator.validate_motors`, `validate_servos`,
  `validate_spi_buses`, `validate_i2c_buses`, `validate_uarts`,
  `validate_all`, `group_motors_by_timer`.

Python dictionaries are embedded as insertion-ordered association lists
(`dictFind`, `dictInsert`); the two issue lists of the validator are
threaded explicitly, each validator returning the issues it appends in
order.  Machine strings are Lean `String`s, integers are `Nat`.
-/

/-- Resource pin assignment (dataclass `ResourcePin` in betaflight_config.py). -/
structure ResourcePin where
  resource_type : String
  index : Nat
  pin : String
deriving DecidableEq, Repr

/-- Timer assignment for a pin (dataclass `TimerAssignment`).  The
`timer` and `channel` fields are `Optional` in the source and default to
`None`. -/
structure TimerAssignment where
  pin : String
  af : Nat
  timer : Option String := none
  channel : Option Nat := none
deriving DecidableEq, Repr

/-- Timer capability record (dataclass `TimerPin` in peripheral_pins.py). -/
structure TimerPin where
  pin : String
  timer : String
  af : Nat
  channel : Nat
  is_complementary : Bool
deriving DecidableEq, Repr

/-- SPI capability record (dataclass `SPIPin`). -/
structure SPIPin where
  pin : String
  bus : String
  signal : String
  alt_variant : String := ""
deriving DecidableEq, Repr

/-- I2C capability record (dataclass `I2CPin`). -/
structure I2CPin where
  pin : String
  bus : String
  signal : String
  alt_variant : String := ""
deriving DecidableEq, Repr

/-- UART capability record (dataclass `UARTPin`). -/
structure UARTPin where
  pin : String
  uart : String
  signal : String
  alt_variant : String := ""
deriving DecidableEq, Repr

/-- The capability model (class `PeripheralPinMap`): the four record
lists produced by parsing PeripheralPins.c. -/
structure PeripheralPinMap where
  timer_pins : List TimerPin := []
  spi_pins : List SPIPin := []
  i2c_pins : List I2CPin := []
  uart_pins : List UARTPin := []
deriving DecidableEq, Repr

/-- Validation issue (dataclass `ValidationError` in validator.py). -/
structure ValidationError where
  severity : String
  message : String
  resource : Option String := none
  pin : Option String := none
deriving DecidableEq, Repr

/-- Validated motor (dataclass `ValidatedMotor`).  The `timer` field is
annotated `str` in the source but receives `timer_assignment.timer`,
which is `Optional[str]` at runtime, so it is embedded as `Option
String`. -/
structure ValidatedMotor where
  index : Nat
  pin_bf : String
  pin_arduino : String
  timer : Option String
  channel : Nat
  af : Nat
deriving DecidableEq, Repr

/-- Validated SPI bus (dataclass `ValidatedSPIBus`). -/
structure ValidatedSPIBus where
  bus_num : Nat
  bus_name : String
  mosi : String
  miso : String
  sclk : String
deriving DecidableEq, Repr

/-- Validated I2C bus (dataclass `ValidatedI2CBus`). -/
structure ValidatedI2CBus where
  bus_num : Nat
  bus_name : String
  scl : String
  sda : String
deriving DecidableEq, Repr

/-- Validated UART (dataclass `ValidatedUART`). -/
structure ValidatedUART where
  uart_num : Nat
  uart_name : String
  tx : String
  rx : String
deriving DecidableEq, Repr

/-- Insertion-ordered association-list lookup: Python `d[k]` /
`d.get(k)` / `k in d`, first (and in our maps only) entry with the key. -/
def dictFind {κ β : Type} [DecidableEq κ] (k : κ) : List (κ × β) → Option β
  | [] => none
  | (k2, v) :: rest => if k = k2 then some v else dictFind k rest

/-- Insertion-ordered association-list assignment: Python `d[k] = v`,
replacing the value in place when the key exists (keeping its position,
as CPython dictionaries do) and appending otherwise. -/
def dictInsert {κ β : Type} [DecidableEq κ] (k : κ) (v : β) :
    List (κ × β) → List (κ × β)
  | [] => [(k, v)]
  | (k2, v2) :: rest =>
    if k2 = k then (k, v) :: rest else (k2, v2) :: dictInsert k v rest

/-- The parsed timers dictionary of `BetaflightConfig` (`self.timers`):
logical pin name to `TimerAssignment`. -/
abbrev Timers := List (String × TimerAssignment)

/-- The configuration model: the fields of `BetaflightConfig` that the
validator reads.  `resources` embeds the dictionary
`self.resources : Dict[str, List[ResourcePin]]` as its total
`get`-with-default-`[]` view, which is the only way the accessors read
it (`self.resources.get(resource_type, [])`).  The remaining parsed
fields (mcu_type, board_name, defines, dma, features, settings) are not
read by any function studied here. -/
structure BetaflightConfig where
  resources : String → List ResourcePin
  timers : Timers

/-- Left-to-right non-overlapping substitution performed by
`Patterns.PIN_LEADING_ZERO.sub(r'\1', bf_pin)` in
`convert_pin_format`: every occurrence of a `'0'` followed by a digit is
replaced by that digit, scanning resumes after the match. -/
def dropLeadingZeros : List Char → List Char
  | '0' :: d :: rest =>
    if d.isDigit then d :: dropLeadingZeros rest
    else '0' :: dropLeadingZeros (d :: rest)
  | c :: rest => c :: dropLeadingZeros rest
  | [] => []

/-- Pin-format conversion `BetaflightConfig.convert_pin_format`: strip a
leading zero from the numeric part (regex substitution above), then
build the result with the f-string `f"P{pin[0]}_{pin[1:]}"`.  The empty
input case is unreachable in the program (Python would raise
`IndexError` on `pin[0]`); every caller passes a parsed resource pin
token, which is non-empty. -/
def convert_pin_format (bf_pin : String) : String :=
  match dropLeadingZeros bf_pin.data with
  | [] => ""
  | c :: rest => "P" ++ String.mk [c] ++ "_" ++ String.mk rest

/-- Character class `\w` of Python regexes, restricted to the ASCII
inputs of the configuration format: letters, digits and underscore. -/
def isWordChar (c : Char) : Bool := c.isAlphanum || c = '_'

/-- Character class `\s` of Python regexes: ASCII whitespace. -/
def isSpaceChar (c : Char) : Bool :=
  c = ' ' || c = '\t' || c = '\n' || c = '\r' || c = '\x0b' || c = '\x0c'

/-- Consume a literal token, as an anchored regex literal does: succeed
with the remaining input when the literal is a prefix of it. -/
def dropLit : List Char → List Char → Option (List Char)
  | [], cs => some cs
  | _ :: _, [] => none
  | l :: ls, c :: cs => if c = l then dropLit ls cs else none

/-- Consume one-or-more characters of a class (`\w+`, `\s+`, `\d+`),
returning the consumed run and the rest.  For the patterns embedded
here the greedy run of a regex never needs to backtrack, because in
every pattern the character class is disjoint from whatever follows
it, so maximal munch is exact. -/
def munch (p : Char → Bool) (cs : List Char) :
    Option (List Char × List Char) :=
  let t := cs.takeWhile p
  if t.isEmpty then none else some (t, cs.dropWhile p)

/-- Decimal value of a digit run, as Python `int()` computes it. -/
def digitsToNat (ds : List Char) : Nat :=
  ds.foldl (fun acc c => acc * 10 + (c.toNat - '0'.toNat)) 0

/-- Anchored match of `Patterns.TIMER = r'timer\s+(\w+)\s+AF(\d+)'`
(used with `re.match`, so anchored at the start of the line and
tolerant of trailing text), returning the two captures: the pin token
and the alternate-function number. -/
def timerMatch (line : String) : Option (String × Nat) := do
  let cs ← dropLit "timer".data line.data
  let (_, cs) ← munch isSpaceChar cs
  let (pinCs, cs) ← munch isWordChar cs
  let (_, cs) ← munch isSpaceChar cs
  let cs ← dropLit "AF".data cs
  let (ds, _) ← munch Char.isDigit cs
  pure (String.mk pinCs, digitsToNat ds)

/-- Anchored match of
`Patterns.TIMER_COMMENT = r'#\s+pin\s+(\w+):\s+(\w+)\s+CH(\d+)'`,
returning the pin token, the timer name and the channel number. -/
def timerCommentMatch (line : String) : Option (String × String × Nat) := do
  let cs ← dropLit "#".data line.data
  let (_, cs) ← munch isSpaceChar cs
  let cs ← dropLit "pin".data cs
  let (_, cs) ← munch isSpaceChar cs
  let (pinCs, cs) ← munch isWordChar cs
  let cs ← dropLit ":".data cs
  let (_, cs) ← munch isSpaceChar cs
  let (tmCs, cs) ← munch isWordChar cs
  let (_, cs) ← munch isSpaceChar cs
  let cs ← dropLit "CH".data cs
  let (ds, _) ← munch Char.isDigit cs
  pure (String.mk pinCs, String.mk tmCs, digitsToNat ds)

/-- Update of the two comment-supplied fields of an existing timers
entry: `self.timers[pin].timer = timer; self.timers[pin].channel =
channel` in `_parse_timer` — the (unique) entry with the key is updated
in place. -/
def updateTimerComment (pin tm : String) (ch : Nat) : Timers → Timers
  | [] => []
  | (k2, ta) :: rest =>
    if k2 = pin then
      (k2, { ta with timer := some tm, channel := some ch }) :: rest
    else (k2, ta) :: updateTimerComment pin tm ch rest

/-- One line of `BetaflightConfig._parse_timer`: the structural branch
(`Patterns.TIMER`) stores a fresh `TimerAssignment(pin=pin, af=af)`
under the pin, then the comment branch (`Patterns.TIMER_COMMENT`)
either fills `timer`/`channel` of an existing entry or creates one with
`af=0`. -/
def parse_timer (timers : Timers) (line : String) : Timers :=
  let timers :=
    match timerMatch line with
    | some (pin, af) => dictInsert pin { pin := pin, af := af } timers
    | none => timers
  match timerCommentMatch line with
  | some (pin, tm, ch) =>
    if (dictFind pin timers).isSome then updateTimerComment pin tm ch timers
    else dictInsert pin { pin := pin, af := 0, timer := some tm, channel := some ch } timers
  | none => timers

/-- Python truth of `tp.timer == timer` where `tp.timer : str` and
`timer : Optional[str]`: equal strings when present, `False` against
`None`. -/
def timerNameEq (tpTimer : String) (timer : Option String) : Prop :=
  some tpTimer = timer

instance (tpTimer : String) (timer : Option String) :
    Decidable (timerNameEq tpTimer timer) := by
  unfold timerNameEq; infer_instance

/-- Last character is a digit: Python
`pin.endswith(tuple('0123456789'))` (empty string gives `False`). -/
def endsWithDigit (s : String) : Bool :=
  match s.data.getLast? with
  | some c => c.isDigit
  | none => false

/-- Head of `s.split(sep)` in Python, total because `str.split` always
returns at least one element. -/
def splitHead (s sep : String) : String := (s.splitOn sep).headD ""

/-- Second element of `s.split('_')` (Python `pin.split('_')[1]`); the
callers below only reach it when `'_' in pin`, in which case the split
has at least two elements. -/
def splitSnd (s sep : String) : String := ((s.splitOn sep).drop 1).headD ""

/-- `PeripheralPinMap.validate_timer`: first an exact
(pin, timer, af) match over `timer_pins` returning the channel; failing
that, the ALT-variant comparison where both sides are reduced to a base
form — the probe pin via the underscore heuristics of the source, the
table pin via `tp.pin.split('_ALT')[0]`. -/
def PeripheralPinMap.validate_timer (pm : PeripheralPinMap) (pin : String)
    (timer : Option String) (af : Nat) : Option Nat :=
  match pm.timer_pins.find? fun tp =>
      decide (tp.pin = pin ∧ timerNameEq tp.timer timer ∧ tp.af = af) with
  | some tp => some tp.channel
  | none =>
    let pin_base :=
      if pin.contains '_' ∧ ¬ endsWithDigit pin then
        splitHead pin "_" ++ "_" ++ splitSnd pin "_"
      else splitHead pin "_ALT"
    match pm.timer_pins.find? fun tp =>
        decide (splitHead tp.pin "_ALT" = pin_base ∧
          timerNameEq tp.timer timer ∧ tp.af = af) with
    | some tp => some tp.channel
    | none => none

/-- `PeripheralPinMap.get_uart`: the UART name of the first record
matching (pin, signal). -/
def PeripheralPinMap.get_uart (pm : PeripheralPinMap) (pin signal : String) :
    Option String :=
  (pm.uart_pins.find? fun up =>
    decide (up.pin = pin ∧ up.signal = signal)).map (·.uart)

/-- `PeripheralPinMap.get_pin_for_spi_bus`: among the records matching
(base pin, signal), the first whose bus equals the target yields
`base_pin + alt_variant`. -/
def PeripheralPinMap.get_pin_for_spi_bus (pm : PeripheralPinMap)
    (base_pin signal target_bus : String) : Option String :=
  (pm.spi_pins.find? fun sp =>
    decide (sp.pin = base_pin ∧ sp.signal = signal ∧ sp.bus = target_bus)).map
    fun sp => base_pin ++ sp.alt_variant

/-- `PeripheralPinMap.get_pin_for_i2c_bus`. -/
def PeripheralPinMap.get_pin_for_i2c_bus (pm : PeripheralPinMap)
    (base_pin signal target_bus : String) : Option String :=
  (pm.i2c_pins.find? fun ip =>
    decide (ip.pin = base_pin ∧ ip.signal = signal ∧ ip.bus = target_bus)).map
    fun ip => base_pin ++ ip.alt_variant

/-- `PeripheralPinMap.get_pin_for_uart`. -/
def PeripheralPinMap.get_pin_for_uart (pm : PeripheralPinMap)
    (base_pin signal target_uart : String) : Option String :=
  (pm.uart_pins.find? fun up =>
    decide (up.pin = base_pin ∧ up.signal = signal ∧ up.uart = target_uart)).map
    fun up => base_pin ++ up.alt_variant

/-- `BetaflightConfig.get_resources`: `self.resources.get(t, [])`. -/
def BetaflightConfig.get_resources (cfg : BetaflightConfig) (t : String) :
    List ResourcePin :=
  cfg.resources t

/-- `BetaflightConfig.get_motors`. -/
def BetaflightConfig.get_motors (cfg : BetaflightConfig) : List ResourcePin :=
  cfg.get_resources "MOTOR"

/-- Value held by the per-signal key of the pin-group dictionaries after
the loops of `get_spi_pins` / `get_i2c_pins` / `get_uart_pins`: each
resource of the type whose index equals the bus number overwrites the
key, so the key ends up absent when no resource matches and otherwise
holds the pin of the last match. -/
def lastIndexedPin (cfg : BetaflightConfig) (t : String) (n : Nat) :
    Option String :=
  (((cfg.get_resources t).filter fun r => decide (r.index = n)).map
    (·.pin)).getLast?

/-- `BetaflightConfig.get_spi_pins`: the keys MOSI, MISO, SCLK (resource
types SPI_MOSI, SPI_MISO, SPI_SCK, the signal name rewriting
SCK → SCLK) — the complete triple, or `None` when fewer than 3 keys
were filled. -/
def BetaflightConfig.get_spi_pins (cfg : BetaflightConfig) (bus_num : Nat) :
    Option (String × String × String) :=
  match lastIndexedPin cfg "SPI_MOSI" bus_num,
      lastIndexedPin cfg "SPI_MISO" bus_num,
      lastIndexedPin cfg "SPI_SCK" bus_num with
  | some mosi, some miso, some sclk => some (mosi, miso, sclk)
  | _, _, _ => none

/-- `BetaflightConfig.get_i2c_pins`: keys SCL, SDA from resource types
I2C_SCL, I2C_SDA. -/
def BetaflightConfig.get_i2c_pins (cfg : BetaflightConfig) (bus_num : Nat) :
    Option (String × String) :=
  match lastIndexedPin cfg "I2C_SCL" bus_num,
      lastIndexedPin cfg "I2C_SDA" bus_num with
  | some scl, some sda => some (scl, sda)
  | _, _ => none

/-- `BetaflightConfig.get_uart_pins`: keys TX, RX from resource types
SERIAL_TX, SERIAL_RX. -/
def BetaflightConfig.get_uart_pins (cfg : BetaflightConfig) (uart_num : Nat) :
    Option (String × String) :=
  match lastIndexedPin cfg "SERIAL_TX" uart_num,
      lastIndexedPin cfg "SERIAL_RX" uart_num with
  | some tx, some rx => some (tx, rx)
  | _, _ => none

/-- Python `str()` of an `Optional[str]` inside an f-string: the string
itself, or `"None"`. -/
def optStr : Option String → String
  | some s => s
  | none => "None"

/-- One iteration of the loop of `ConfigValidator.validate_motors`:
the validated motor (if any), the error (if any) and the warning (if
any) this motor contributes, in source order.  The warning condition is
the Python truthiness test `timer_assignment.channel and channel !=
timer_assignment.channel` (a `None` or `0` annotation channel never
warns). -/
def motorStep (timers : Timers) (pm : PeripheralPinMap) (m : ResourcePin) :
    List ValidatedMotor × List ValidationError × List ValidationError :=
  let i := m.index
  let pin_bf := m.pin
  let pin_arduino := convert_pin_format pin_bf
  match dictFind pin_bf timers with
  | none =>
    ([], [{ severity := "error",
            message := s!"Motor {i} pin {pin_bf} has no timer assignment",
            resource := some ("MOTOR_" ++ toString i), pin := some pin_bf }], [])
  | some ta =>
    let tmStr := optStr ta.timer
    let af := ta.af
    match pm.validate_timer pin_arduino ta.timer ta.af with
    | none =>
      ([], [{ severity := "error",
              message := s!"Motor {i}: {pin_arduino} does not support {tmStr} on AF{af}",
              resource := some ("MOTOR_" ++ toString i), pin := some pin_bf }], [])
    | some channel =>
      let warns :=
        match ta.channel with
        | some c =>
          if c ≠ 0 ∧ channel ≠ c then
            [{ severity := "warning",
               message := s!"Motor {i}: Expected CH{c}, found CH{channel}",
               resource := some ("MOTOR_" ++ toString i), pin := some pin_bf }]
          else []
        | none => []
      ([{ index := i, pin_bf := pin_bf, pin_arduino := pin_arduino,
          timer := ta.timer, channel := channel, af := ta.af }], [], warns)

/-- The loop of `validate_motors` over `self.bf_config.get_motors()`,
accumulating validated motors, errors and warnings in append order. -/
def validateMotorsGo (timers : Timers) (pm : PeripheralPinMap) :
    List ResourcePin →
      List ValidatedMotor × List ValidationError × List ValidationError
  | [] => ([], [], [])
  | m :: rest =>
    let s := motorStep timers pm m
    let r := validateMotorsGo timers pm rest
    (s.1 ++ r.1, s.2.1 ++ r.2.1, s.2.2 ++ r.2.2)

/-- `ConfigValidator.validate_motors`. -/
def validate_motors (cfg : BetaflightConfig) (pm : PeripheralPinMap) :
    List ValidatedMotor × List ValidationError × List ValidationError :=
  validateMotorsGo cfg.timers pm cfg.get_motors

/-- Attribute access `self.bf_config.get_servos()` performed by
`validate_servos`: class `BetaflightConfig` (betaflight_config.py)
defines no method `get_servos`, so the call raises `AttributeError`
before any servo is processed. -/
def BetaflightConfig.get_servos (_cfg : BetaflightConfig) :
    Except String (List ResourcePin) :=
  Except.error "AttributeError: BetaflightConfig has no attribute get_servos"

/-- One iteration of the loop of `validate_servos` (dead code in the
source, reproduced for fidelity: identical to the motor step except for
the `Servo`/`SERVO_` message strings). -/
def servoStep (timers : Timers) (pm : PeripheralPinMap) (m : ResourcePin) :
    List ValidatedMotor × List ValidationError × List ValidationError :=
  let i := m.index
  let pin_bf := m.pin
  let pin_arduino := convert_pin_format pin_bf
  match dictFind pin_bf timers with
  | none =>
    ([], [{ severity := "error",
            message := s!"Servo {i} pin {pin_bf} has no timer assignment",
            resource := some ("SERVO_" ++ toString i), pin := some pin_bf }], [])
  | some ta =>
    let tmStr := optStr ta.timer
    let af := ta.af
    match pm.validate_timer pin_arduino ta.timer ta.af with
    | none =>
      ([], [{ severity := "error",
              message := s!"Servo {i}: {pin_arduino} does not support {tmStr} on AF{af}",
              resource := some ("SERVO_" ++ toString i), pin := some pin_bf }], [])
    | some channel =>
      let warns :=
        match ta.channel with
        | some c =>
          if c ≠ 0 ∧ channel ≠ c then
            [{ severity := "warning",
               message := s!"Servo {i}: Expected CH{c}, found CH{channel}",
               resource := some ("SERVO_" ++ toString i), pin := some pin_bf }]
          else []
        | none => []
      ([{ index := i, pin_bf := pin_bf, pin_arduino := pin_arduino,
          timer := ta.timer, channel := channel, af := ta.af }], [], warns)

/-- The loop of `validate_servos`. -/
def validateServosGo (timers : Timers) (pm : PeripheralPinMap) :
    List ResourcePin →
      List ValidatedMotor × List ValidationError × List ValidationError
  | [] => ([], [], [])
  | m :: rest =>
    let s := servoStep timers pm m
    let r := validateServosGo timers pm rest
    (s.1 ++ r.1, s.2.1 ++ r.2.1, s.2.2 ++ r.2.2)

/-- `ConfigValidator.validate_servos`: iterates over
`self.bf_config.get_servos()`, so it propagates the `AttributeError`
of the missing accessor on every input. -/
def validate_servos (cfg : BetaflightConfig) (pm : PeripheralPinMap) :
    Except String
      (List ValidatedMotor × List ValidationError × List ValidationError) := do
  let servos ← cfg.get_servos
  pure (validateServosGo cfg.timers pm servos)

/-- One iteration of the loop of `validate_spi_buses` for one bus
number of the enumeration: incomplete pin group → one error; otherwise
the signals are checked in dictionary order MOSI, MISO, SCLK, stopping
at the first failure (`break`), and the bus is emitted only when all
three succeed (`for ... else`). -/
def spiBusStep (cfg : BetaflightConfig) (pm : PeripheralPinMap) (n : Nat) :
    List ValidatedSPIBus × List ValidationError :=
  match cfg.get_spi_pins n with
  | none =>
    ([], [{ severity := "error",
            message := s!"SPI{n} has incomplete pin assignments",
            resource := some ("SPI" ++ toString n) }])
  | some (mosiBf, misoBf, sclkBf) =>
    let target := "SPI" ++ toString n
    let mosiB := convert_pin_format mosiBf
    let misoB := convert_pin_format misoBf
    let sclkB := convert_pin_format sclkBf
    match pm.get_pin_for_spi_bus mosiB "MOSI" target with
    | none =>
      ([], [{ severity := "error",
              message := s!"SPI{n} MOSI pin {mosiB} cannot reach {target}",
              resource := some target }])
    | some mosiP =>
      match pm.get_pin_for_spi_bus misoB "MISO" target with
      | none =>
        ([], [{ severity := "error",
                message := s!"SPI{n} MISO pin {misoB} cannot reach {target}",
                resource := some target }])
      | some misoP =>
        match pm.get_pin_for_spi_bus sclkB "SCLK" target with
        | none =>
          ([], [{ severity := "error",
                  message := s!"SPI{n} SCLK pin {sclkB} cannot reach {target}",
                  resource := some target }])
        | some sclkP =>
          ([{ bus_num := n, bus_name := target,
              mosi := mosiP, miso := misoP, sclk := sclkP }], [])

/-- The loop of `validate_spi_buses` over the bus numbers enumerated
from the SPI_SCK resource list. -/
def validateSpiBusesGo (cfg : BetaflightConfig) (pm : PeripheralPinMap) :
    List Nat → List ValidatedSPIBus × List ValidationError
  | [] => ([], [])
  | n :: rest =>
    let s := spiBusStep cfg pm n
    let r := validateSpiBusesGo cfg pm rest
    (s.1 ++ r.1, s.2 ++ r.2)

/-- `ConfigValidator.validate_spi_buses`: `bus_numbers = [res.index for
res in self.bf_config.get_resources('SPI_SCK')]` — the enumeration is
keyed on the SCK resources.  The validator appends no warnings here;
the warning component is `[]`. -/
def validate_spi_buses (cfg : BetaflightConfig) (pm : PeripheralPinMap) :
    List ValidatedSPIBus × List ValidationError × List ValidationError :=
  let r := validateSpiBusesGo cfg pm ((cfg.get_resources "SPI_SCK").map (·.index))
  (r.1, r.2, [])

/-- One iteration of the loop of `validate_i2c_buses`, signals checked
in dictionary order SCL, SDA. -/
def i2cBusStep (cfg : BetaflightConfig) (pm : PeripheralPinMap) (n : Nat) :
    List ValidatedI2CBus × List ValidationError :=
  match cfg.get_i2c_pins n with
  | none =>
    ([], [{ severity := "error",
            message := s!"I2C{n} has incomplete pin assignments",
            resource := some ("I2C" ++ toString n) }])
  | some (sclBf, sdaBf) =>
    let target := "I2C" ++ toString n
    let sclB := convert_pin_format sclBf
    let sdaB := convert_pin_format sdaBf
    match pm.get_pin_for_i2c_bus sclB "SCL" target with
    | none =>
      ([], [{ severity := "error",
              message := s!"I2C{n} SCL pin {sclB} cannot reach {target}",
              resource := some target }])
    | some sclP =>
      match pm.get_pin_for_i2c_bus sdaB "SDA" target with
      | none =>
        ([], [{ severity := "error",
                message := s!"I2C{n} SDA pin {sdaB} cannot reach {target}",
                resource := some target }])
      | some sdaP =>
        ([{ bus_num := n, bus_name := target, scl := sclP, sda := sdaP }], [])

/-- The loop of `validate_i2c_buses` over the bus numbers enumerated
from the I2C_SCL resource list. -/
def validateI2cBusesGo (cfg : BetaflightConfig) (pm : PeripheralPinMap) :
    List Nat → List ValidatedI2CBus × List ValidationError
  | [] => ([], [])
  | n :: rest =>
    let s := i2cBusStep cfg pm n
    let r := validateI2cBusesGo cfg pm rest
    (s.1 ++ r.1, s.2 ++ r.2)

/-- `ConfigValidator.validate_i2c_buses`. -/
def validate_i2c_buses (cfg : BetaflightConfig) (pm : PeripheralPinMap) :
    List ValidatedI2CBus × List ValidationError × List ValidationError :=
  let r := validateI2cBusesGo cfg pm ((cfg.get_resources "I2C_SCL").map (·.index))
  (r.1, r.2, [])

/-- One iteration of the loop of `validate_uarts` for one UART number:
an incomplete pin group is a warning, not an error; the target instance
is `self.pinmap.get_uart(tx_base_pin, 'TX')` — whichever UART the TX
pin reaches first in the capability table — and both signals are then
resolved against that instance. -/
def uartStep (cfg : BetaflightConfig) (pm : PeripheralPinMap) (n : Nat) :
    List ValidatedUART × List ValidationError × List ValidationError :=
  match cfg.get_uart_pins n with
  | none =>
    ([], [],
     [{ severity := "warning",
        message := s!"UART{n} has incomplete pin assignments (TX only?)",
        resource := some ("UART" ++ toString n) }])
  | some (txBf, rxBf) =>
    let txB := convert_pin_format txBf
    let rxB := convert_pin_format rxBf
    match pm.get_uart txB "TX" with
    | none =>
      ([], [{ severity := "error",
              message := s!"UART{n} TX pin {txB} not found in pinmap",
              resource := some ("UART" ++ toString n) }], [])
    | some first_uart =>
      match pm.get_pin_for_uart txB "TX" first_uart with
      | none =>
        ([], [{ severity := "error",
                message := s!"UART{n} TX pin {txB} cannot reach {first_uart}",
                resource := some ("UART" ++ toString n) }], [])
      | some txP =>
        match pm.get_pin_for_uart rxB "RX" first_uart with
        | none =>
          ([], [{ severity := "error",
                  message := s!"UART{n} RX pin {rxB} cannot reach {first_uart}",
                  resource := some ("UART" ++ toString n) }], [])
        | some rxP =>
          ([{ uart_num := n, uart_name := first_uart, tx := txP, rx := rxP }],
           [], [])

/-- The loop of `validate_uarts` over the UART numbers enumerated from
the SERIAL_TX resource list. -/
def validateUartsGo (cfg : BetaflightConfig) (pm : PeripheralPinMap) :
    List Nat →
      List ValidatedUART × List ValidationError × List ValidationError
  | [] => ([], [], [])
  | n :: rest =>
    let s := uartStep cfg pm n
    let r := validateUartsGo cfg pm rest
    (s.1 ++ r.1, s.2.1 ++ r.2.1, s.2.2 ++ r.2.2)

/-- `ConfigValidator.validate_uarts`: `uart_numbers = [res.index for res
in self.bf_config.get_resources('SERIAL_TX')]`. -/
def validate_uarts (cfg : BetaflightConfig) (pm : PeripheralPinMap) :
    List ValidatedUART × List ValidationError × List ValidationError :=
  validateUartsGo cfg pm ((cfg.get_resources "SERIAL_TX").map (·.index))

/-- `ConfigValidator.validate_all`: clears both issue lists, runs the
four validators (servo validation is never invoked), and returns
`len(self.errors) == 0`.  The returned triple carries the accumulated
errors and warnings in append order. -/
def validate_all (cfg : BetaflightConfig) (pm : PeripheralPinMap) :
    Bool × List ValidationError × List ValidationError :=
  let rm := validate_motors cfg pm
  let rs := validate_spi_buses cfg pm
  let ri := validate_i2c_buses cfg pm
  let ru := validate_uarts cfg pm
  let errors := rm.2.1 ++ rs.2.1 ++ ri.2.1 ++ ru.2.1
  let warnings := rm.2.2 ++ rs.2.2 ++ ri.2.2 ++ ru.2.2
  (errors.isEmpty, errors, warnings)

/-- In-place append to the (unique) bank entry holding the motor's
timer key: `timer_banks[motor.timer].append(motor)`. -/
def bankAppend (m : ValidatedMotor) :
    List (Option String × List ValidatedMotor) →
      List (Option String × List ValidatedMotor)
  | [] => []
  | (k2, l) :: rest =>
    if k2 = m.timer then (k2, l ++ [m]) :: rest
    else (k2, l) :: bankAppend m rest

/-- One step of `group_motors_by_timer`: append the motor to its
timer's bank, creating the bank at the end of the dictionary when the
timer key is new. -/
def addMotorToBanks (banks : List (Option String × List ValidatedMotor))
    (m : ValidatedMotor) : List (Option String × List ValidatedMotor) :=
  if (dictFind m.timer banks).isSome then bankAppend m banks
  else banks ++ [(m.timer, [m])]

/-- `ConfigValidator.group_motors_by_timer`: insertion-ordered
dictionary from timer key to the list of motors appended in input
order. -/
def group_motors_by_timer (motors : List ValidatedMotor) :
    List (Option String × List ValidatedMotor) :=
  motors.foldl addMotorToBanks []

/-- C1: `convert_pin_format` evaluated at the inputs named by the claim.
The code produces `"PB_4"`, `"PA_10"`, `"PE_11"` — an underscore is
inserted between the port letter and the number by the f-string
`f"P{pin[0]}_{pin[1:]}"` — whereas the claim (and the repository's own
unit tests, `test_betaflight_config.py::test_pin_format_conversion`)
require `"PB4"`, `"PA10"`, `"PE11"` with no character inserted. -/
theorem c1_convert_pin_format_inserts_underscore :
    convert_pin_format "B04" = "PB_4" ∧ convert_pin_format "A10" = "PA_10" ∧
    convert_pin_format "E11" = "PE_11" ∧ convert_pin_format "B04" ≠ "PB4" := by
  refine ⟨rfl, rfl, rfl, ?_⟩
  decide

/-- Lookup after dictionary assignment of the same key. -/
theorem dictFind_dictInsert_self {κ β : Type} [DecidableEq κ] (k : κ) (v : β)
    (m : List (κ × β)) : dictFind k (dictInsert k v m) = some v := by
  induction m with
  | nil => simp [dictInsert, dictFind]
  | cons e rest ih =>
    obtain ⟨k2, v2⟩ := e
    by_cases h : k2 = k
    · subst h
      simp [dictInsert, dictFind]
    · simp [dictInsert, dictFind, h, ih, show ¬ k = k2 from fun hh => h hh.symm]

/-- Lookup after the in-place field update performed by the comment
branch of `_parse_timer`. -/
theorem dictFind_updateTimerComment (timers : Timers) (pin tm : String)
    (ch : Nat) (ta : TimerAssignment) (h : dictFind pin timers = some ta) :
    dictFind pin (updateTimerComment pin tm ch timers) =
      some { ta with timer := some tm, channel := some ch } := by
  induction timers with
  | nil => simp [dictFind] at h
  | cons e rest ih =>
    obtain ⟨k2, v2⟩ := e
    by_cases hk : pin = k2
    · subst hk
      simp [dictFind] at h
      subst h
      simp [updateTimerComment, dictFind]
    · simp [dictFind, hk] at h
      simp [updateTimerComment, dictFind, hk, ih h,
        show ¬ k2 = pin from fun hh => hk hh.symm]

/-- The two line shapes of `_parse_timer` are disjoint: a line matching
`Patterns.TIMER` starts with `t`, so it cannot match
`Patterns.TIMER_COMMENT`, which requires a leading `#`. -/
theorem timerMatch_some_imp_comment_none (s : String)
    (h : (timerMatch s).isSome) : timerCommentMatch s = none := by
  unfold timerCommentMatch
  cases hd : s.data with
  | nil =>
    exfalso
    unfold timerMatch at h
    rw [hd] at h
    simp [dropLit] at h
  | cons c cs =>
    have hc : c = 't' := by
      by_contra hne
      unfold timerMatch at h
      rw [hd] at h
      simp [dropLit, hne] at h
    subst hc
    simp [dropLit, show ('t' : Char) ≠ '#' by decide]

/-- A line matching `Patterns.TIMER_COMMENT` starts with `#`, so it
cannot match `Patterns.TIMER`. -/
theorem commentMatch_some_imp_timer_none (s : String)
    (h : (timerCommentMatch s).isSome) : timerMatch s = none := by
  unfold timerMatch
  cases hd : s.data with
  | nil =>
    exfalso
    unfold timerCommentMatch at h
    rw [hd] at h
    simp [dropLit] at h
  | cons c cs =>
    have hc : c = '#' := by
      by_contra hne
      unfold timerCommentMatch at h
      rw [hd] at h
      simp [dropLit, hne] at h
    subst hc
    simp [dropLit, show ('#' : Char) ≠ 't' by decide]

/-- C2 (counterexample): feeding `_parse_timer` the annotation comment
first and the structural timer line second yields a different timers
entry than the opposite order — the structural branch overwrites the
provisional record, discarding the timer name and channel the
annotation had set. -/
theorem c2_counterexample_order_matters :
    dictFind "B04"
        (parse_timer (parse_timer [] "# pin B04: TIM3 CH1 (AF2)") "timer B04 AF2") ≠
      dictFind "B04"
        (parse_timer (parse_timer [] "timer B04 AF2") "# pin B04: TIM3 CH1 (AF2)") := by
  decide

/-- C2 (amended): the merge of the two line kinds is order-sensitive.
When the structural `timer <pin> AF<n>` line comes first and the
annotation `# pin <pin>: <timer> CH<n>` second, the entry is the merged
record (alternate-function code from the structural line, timer name
and channel from the annotation).  When the annotation comes first, the
structural line replaces the record wholesale, leaving the timer name
and channel unset — a field already set by the annotation is
discarded. -/
theorem c2_amended_merge_is_order_sensitive (m : Timers)
    (lineT lineC p : String) (af : Nat) (tm : String) (ch : Nat)
    (hT : timerMatch lineT = some (p, af))
    (hC : timerCommentMatch lineC = some (p, tm, ch)) :
    dictFind p (parse_timer (parse_timer m lineT) lineC) =
      some { pin := p, af := af, timer := some tm, channel := some ch } ∧
    dictFind p (parse_timer (parse_timer m lineC) lineT) =
      some { pin := p, af := af, timer := none, channel := none } := by
  have hTC : timerCommentMatch lineT = none :=
    timerMatch_some_imp_comment_none lineT (by rw [hT]; rfl)
  have hCT : timerMatch lineC = none :=
    commentMatch_some_imp_timer_none lineC (by rw [hC]; rfl)
  have hstep1 : ∀ timers : Timers,
      parse_timer timers lineT = dictInsert p { pin := p, af := af } timers := by
    intro timers
    unfold parse_timer
    rw [hT, hTC]
  have hstep2 : ∀ timers : Timers,
      parse_timer timers lineC =
        if (dictFind p timers).isSome then updateTimerComment p tm ch timers
        else dictInsert p { pin := p, af := 0, timer := some tm, channel := some ch }
          timers := by
    intro timers
    unfold parse_timer
    rw [hCT, hC]
  constructor
  · rw [hstep1 m, hstep2 (dictInsert p { pin := p, af := af } m)]
    have h2 : dictFind p (dictInsert p { pin := p, af := af } m) =
        some { pin := p, af := af } := dictFind_dictInsert_self p _ m
    rw [h2]
    simp only [Option.isSome_some, if_true]
    exact dictFind_updateTimerComment _ p tm ch _ h2
  · rw [hstep1 (parse_timer m lineC)]
    exact dictFind_dictInsert_self p _ _

/-- C2 (witness): the amended theorem applied to the concrete pair of
lines of the claim. -/
theorem c2_amended_merge_is_order_sensitive_witness :
    dictFind "B04"
        (parse_timer (parse_timer [] "timer B04 AF2") "# pin B04: TIM3 CH1 (AF2)") =
      some { pin := "B04", af := 2, timer := some "TIM3", channel := some 1 } ∧
    dictFind "B04"
        (parse_timer (parse_timer [] "# pin B04: TIM3 CH1 (AF2)") "timer B04 AF2") =
      some { pin := "B04", af := 2, timer := none, channel := none } :=
  c2_amended_merge_is_order_sensitive [] "timer B04 AF2"
    "# pin B04: TIM3 CH1 (AF2)" "B04" 2 "TIM3" 1 (by decide) (by decide)

/-- C6: `validate_all` accepts exactly when the accumulated error list
is empty; the warning list plays no part in the returned signal. -/
theorem c6_validate_all_accepts_iff_no_errors (cfg : BetaflightConfig)
    (pm : PeripheralPinMap) :
    (validate_all cfg pm).1 = true ↔ (validate_all cfg pm).2.1 = [] := by
  unfold validate_all
  simp [List.isEmpty_iff]

/-- Presence of a per-signal key of the pin-group dictionaries: the key
is filled exactly when some resource of the type carries the bus
index. -/
theorem lastIndexedPin_isSome (cfg : BetaflightConfig) (t : String) (n : Nat) :
    (lastIndexedPin cfg t n).isSome = true ↔
      ∃ r ∈ cfg.get_resources t, r.index = n := by
  unfold lastIndexedPin
  rw [List.getLast?_isSome]
  simp [ne_eq, List.map_eq_nil_iff, List.filter_eq_nil_iff, decide_eq_true_eq,
    not_forall]

/-- Value of a filled per-signal key: the pin of a resource of the type
carrying the bus index (the last such resource). -/
theorem lastIndexedPin_mem (cfg : BetaflightConfig) (t : String) (n : Nat)
    (p : String) (h : lastIndexedPin cfg t n = some p) :
    ∃ r ∈ cfg.get_resources t, r.index = n ∧ r.pin = p := by
  unfold lastIndexedPin at h
  have hm := List.mem_of_mem_getLast? h
  simp only [List.mem_map, List.mem_filter, decide_eq_true_eq] at hm
  obtain ⟨r, ⟨hr, hi⟩, hp⟩ := hm
  exact ⟨r, hr, hi, hp⟩

/-- C9: the per-bus pin-group accessors return `none` exactly when a
required signal is missing for the index — `get_spi_pins` needs a
SPI_MOSI, a SPI_MISO and a SPI_SCK resource at the index, `get_i2c_pins`
an I2C_SCL and an I2C_SDA resource, `get_uart_pins` a SERIAL_TX and a
SERIAL_RX resource — and otherwise return the complete group (the
3-entry MOSI/MISO/SCLK triple, resp. the 2-entry pairs), each entry the
pin of a matching resource.  A partial group is never returned: the
result type offers only `none` or the full tuple. -/
theorem c9_pin_group_accessors (cfg : BetaflightConfig) (n : Nat) :
    ((cfg.get_spi_pins n).isSome = true ↔
      ((∃ r ∈ cfg.get_resources "SPI_MOSI", r.index = n) ∧
       (∃ r ∈ cfg.get_resources "SPI_MISO", r.index = n) ∧
       (∃ r ∈ cfg.get_resources "SPI_SCK", r.index = n))) ∧
    ((cfg.get_i2c_pins n).isSome = true ↔
      ((∃ r ∈ cfg.get_resources "I2C_SCL", r.index = n) ∧
       (∃ r ∈ cfg.get_resources "I2C_SDA", r.index = n))) ∧
    ((cfg.get_uart_pins n).isSome = true ↔
      ((∃ r ∈ cfg.get_resources "SERIAL_TX", r.index = n) ∧
       (∃ r ∈ cfg.get_resources "SERIAL_RX", r.index = n))) ∧
    (∀ mosi miso sclk, cfg.get_spi_pins n = some (mosi, miso, sclk) →
      (∃ r ∈ cfg.get_resources "SPI_MOSI", r.index = n ∧ r.pin = mosi) ∧
      (∃ r ∈ cfg.get_resources "SPI_MISO", r.index = n ∧ r.pin = miso) ∧
      (∃ r ∈ cfg.get_resources "SPI_SCK", r.index = n ∧ r.pin = sclk)) := by
  refine ⟨?_, ?_, ?_, ?_⟩
  · unfold BetaflightConfig.get_spi_pins
    rw [← lastIndexedPin_isSome cfg "SPI_MOSI" n,
      ← lastIndexedPin_isSome cfg "SPI_MISO" n,
      ← lastIndexedPin_isSome cfg "SPI_SCK" n]
    cases lastIndexedPin cfg "SPI_MOSI" n <;>
      cases lastIndexedPin cfg "SPI_MISO" n <;>
      cases lastIndexedPin cfg "SPI_SCK" n <;> simp
  · unfold BetaflightConfig.get_i2c_pins
    rw [← lastIndexedPin_isSome cfg "I2C_SCL" n,
      ← lastIndexedPin_isSome cfg "I2C_SDA" n]
    cases lastIndexedPin cfg "I2C_SCL" n <;>
      cases lastIndexedPin cfg "I2C_SDA" n <;> simp
  · unfold BetaflightConfig.get_uart_pins
    rw [← lastIndexedPin_isSome cfg "SERIAL_TX" n,
      ← lastIndexedPin_isSome cfg "SERIAL_RX" n]
    cases lastIndexedPin cfg "SERIAL_TX" n <;>
      cases lastIndexedPin cfg "SERIAL_RX" n <;> simp
  · intro mosi miso sclk h
    unfold BetaflightConfig.get_spi_pins at h
    cases h1 : lastIndexedPin cfg "SPI_MOSI" n with
    | none => rw [h1] at h; simp at h
    | some p1 =>
      cases h2 : lastIndexedPin cfg "SPI_MISO" n with
      | none => rw [h1, h2] at h; simp at h
      | some p2 =>
        cases h3 : lastIndexedPin cfg "SPI_SCK" n with
        | none => rw [h1, h2, h3] at h; simp at h
        | some p3 =>
          rw [h1, h2, h3] at h
          simp only [Option.some.injEq, Prod.mk.injEq] at h
          obtain ⟨e1, e2, e3⟩ := h
          subst e1; subst e2; subst e3
          exact ⟨lastIndexedPin_mem cfg "SPI_MOSI" n _ h1,
            lastIndexedPin_mem cfg "SPI_MISO" n _ h2,
            lastIndexedPin_mem cfg "SPI_SCK" n _ h3⟩

/-- Configuration of the C9 witness: a complete SPI1 pin group. -/
def cfg9w : BetaflightConfig where
  resources := fun t =>
    if t = "SPI_MOSI" then [{ resource_type := "SPI_MOSI", index := 1, pin := "A07" }]
    else if t = "SPI_MISO" then [{ resource_type := "SPI_MISO", index := 1, pin := "A06" }]
    else if t = "SPI_SCK" then [{ resource_type := "SPI_SCK", index := 1, pin := "A05" }]
    else []
  timers := []

/-- C9 (witness): the accessor theorem applied to a concrete complete
SPI group. -/
theorem c9_pin_group_accessors_witness :
    cfg9w.get_spi_pins 1 = some ("A07", "A06", "A05") ∧
    ∃ r ∈ cfg9w.get_resources "SPI_MOSI", r.index = 1 ∧ r.pin = "A07" :=
  ⟨by decide,
   ((c9_pin_group_accessors cfg9w 1).2.2.2 "A07" "A06" "A05" (by decide)).1⟩

/-- Configuration of the C3 scenario: an SPI group declaring MOSI and
MISO pins for index 1 but no SCLK resource. -/
def cfgC3 : BetaflightConfig where
  resources := fun t =>
    if t = "SPI_MOSI" then [{ resource_type := "SPI_MOSI", index := 1, pin := "A07" }]
    else if t = "SPI_MISO" then [{ resource_type := "SPI_MISO", index := 1, pin := "A06" }]
    else []
  timers := []

/-- C3 (counterexample): with MOSI and MISO declared but no SCLK
resource for index 1, `validate_spi_buses` returns no entry for bus 1
and records no error at all — not the one error the claim requires —
because the bus enumeration is keyed on the SPI_SCK resource list,
which is empty here. -/
theorem c3_counterexample_no_error_recorded :
    validate_spi_buses cfgC3 ({} : PeripheralPinMap) = ([], [], []) ∧
    ¬ (validate_spi_buses cfgC3 ({} : PeripheralPinMap)).2.1.length = 1 := by
  decide

/-- C3 (amended): bus indices are enumerated from the SPI_SCK
resources.  An index with no SCLK resource is skipped silently — no
entry and no error; the incomplete-pin-assignment error for SPI1 is
emitted exactly once when an SCLK resource exists for index 1 but the
pin group is still incomplete (MOSI or MISO missing). -/
theorem c3_amended_incomplete_spi_enumeration :
    (∀ (cfg : BetaflightConfig) (pm : PeripheralPinMap),
      cfg.get_resources "SPI_SCK" = [] →
      validate_spi_buses cfg pm = ([], [], [])) ∧
    (∀ (cfg : BetaflightConfig) (pm : PeripheralPinMap) (rt p : String),
      cfg.get_resources "SPI_SCK" = [{ resource_type := rt, index := 1, pin := p }] →
      cfg.get_spi_pins 1 = none →
      validate_spi_buses cfg pm =
        ([], [{ severity := "error",
                message := "SPI1 has incomplete pin assignments",
                resource := some "SPI1", pin := none }], [])) := by
  constructor
  · intro cfg pm h
    unfold validate_spi_buses
    rw [h]
    simp [validateSpiBusesGo]
  · intro cfg pm rt p h h2
    unfold validate_spi_buses
    rw [h]
    simp only [List.map_cons, List.map_nil]
    simp [validateSpiBusesGo, spiBusStep, h2]
    decide

/-- Configuration of the C3 witness for the error branch: an SCLK
resource for index 1 with no MOSI or MISO resources. -/
def cfgC3w : BetaflightConfig where
  resources := fun t =>
    if t = "SPI_SCK" then [{ resource_type := "SPI_SCK", index := 1, pin := "A05" }]
    else []
  timers := []

/-- C3 (witness): both branches of the amended theorem at concrete
configurations. -/
theorem c3_amended_incomplete_spi_enumeration_witness :
    validate_spi_buses cfgC3 ({} : PeripheralPinMap) = ([], [], []) ∧
    validate_spi_buses cfgC3w ({} : PeripheralPinMap) =
      ([], [{ severity := "error",
              message := "SPI1 has incomplete pin assignments",
              resource := some "SPI1", pin := none }], []) :=
  ⟨c3_amended_incomplete_spi_enumeration.1 cfgC3 {} (by decide),
   c3_amended_incomplete_spi_enumeration.2 cfgC3w {} "SPI_SCK" "A05"
     (by decide) (by decide)⟩

/-- Configuration of the C7 counterexample: a UART index declaring only
an RX pin. -/
def cfgC7 : BetaflightConfig where
  resources := fun t =>
    if t = "SERIAL_RX" then [{ resource_type := "SERIAL_RX", index := 3, pin := "A03" }]
    else []
  timers := []

/-- C7 (counterexample): a UART index that declares only an RX pin is
not reported at all — `validate_uarts` enumerates indices from the
SERIAL_TX resources, so the RX-only index 3 yields no warning, no
error and no entry, contradicting the claim that every incomplete UART
group is reported as a warning. -/
theorem c7_counterexample_rx_only_uart_silent :
    validate_uarts cfgC7 ({} : PeripheralPinMap) = ([], [], []) ∧
    ¬ (validate_uarts cfgC7 ({} : PeripheralPinMap)).2.2.length = 1 := by
  decide

/-- C7 (amended): incomplete-group reporting differs by peripheral as
claimed — warning for UART, error for SPI and I2C — but only for
indices the validator enumerates: a UART index appearing in the
SERIAL_TX resources whose pin group is incomplete gets exactly one
warning and no entry; an I2C index in the I2C_SCL resources and an SPI
index in the SPI_SCK resources with incomplete groups get exactly one
error each; a UART index declaring only an RX pin is never enumerated
and is silently omitted. -/
theorem c7_amended_incomplete_group_reporting :
    (∀ (cfg : BetaflightConfig) (pm : PeripheralPinMap) (rt : String) (n : Nat)
      (p : String),
      cfg.get_resources "SERIAL_TX" = [{ resource_type := rt, index := n, pin := p }] →
      cfg.get_uart_pins n = none →
      validate_uarts cfg pm =
        ([], [],
         [{ severity := "warning",
            message := s!"UART{n} has incomplete pin assignments (TX only?)",
            resource := some ("UART" ++ toString n), pin := none }])) ∧
    (∀ (cfg : BetaflightConfig) (pm : PeripheralPinMap) (rt : String) (n : Nat)
      (p : String),
      cfg.get_resources "I2C_SCL" = [{ resource_type := rt, index := n, pin := p }] →
      cfg.get_i2c_pins n = none →
      validate_i2c_buses cfg pm =
        ([], [{ severity := "error",
                message := s!"I2C{n} has incomplete pin assignments",
                resource := some ("I2C" ++ toString n), pin := none }], [])) ∧
    (∀ (cfg : BetaflightConfig) (pm : PeripheralPinMap) (rt : String) (n : Nat)
      (p : String),
      cfg.get_resources "SPI_SCK" = [{ resource_type := rt, index := n, pin := p }] →
      cfg.get_spi_pins n = none →
      validate_spi_buses cfg pm =
        ([], [{ severity := "error",
                message := s!"SPI{n} has incomplete pin assignments",
                resource := some ("SPI" ++ toString n), pin := none }], [])) ∧
    (∀ (cfg : BetaflightConfig) (pm : PeripheralPinMap),
      cfg.get_resources "SERIAL_TX" = [] →
      validate_uarts cfg pm = ([], [], [])) := by
  refine ⟨?_, ?_, ?_, ?_⟩
  · intro cfg pm rt n p h h2
    unfold validate_uarts
    rw [h]
    simp only [List.map_cons, List.map_nil]
    simp [validateUartsGo, uartStep, h2]
  · intro cfg pm rt n p h h2
    unfold validate_i2c_buses
    rw [h]
    simp only [List.map_cons, List.map_nil]
    simp [validateI2cBusesGo, i2cBusStep, h2]
  · intro cfg pm rt n p h h2
    unfold validate_spi_buses
    rw [h]
    simp only [List.map_cons, List.map_nil]
    simp [validateSpiBusesGo, spiBusStep, h2]
  · intro cfg pm h
    unfold validate_uarts
    rw [h]
    simp [validateUartsGo]

/-- Configuration of the C7 witness: a TX-only UART index 4 and an
SCL-only I2C index 2. -/
def cfgC7w : BetaflightConfig where
  resources := fun t =>
    if t = "SERIAL_TX" then [{ resource_type := "SERIAL_TX", index := 4, pin := "A02" }]
    else if t = "I2C_SCL" then [{ resource_type := "I2C_SCL", index := 2, pin := "B10" }]
    else []
  timers := []

/-- C7 (witness): the amended theorem applied to the concrete TX-only
UART (warning) and SCL-only I2C (error), and to the RX-only
configuration (silence). -/
theorem c7_amended_incomplete_group_reporting_witness :
    validate_uarts cfgC7w ({} : PeripheralPinMap) =
      ([], [],
       [{ severity := "warning",
          message := "UART4 has incomplete pin assignments (TX only?)",
          resource := some "UART4", pin := none }]) ∧
    validate_i2c_buses cfgC7w ({} : PeripheralPinMap) =
      ([], [{ severity := "error",
              message := "I2C2 has incomplete pin assignments",
              resource := some "I2C2", pin := none }], []) ∧
    validate_uarts cfgC7 ({} : PeripheralPinMap) = ([], [], []) :=
  ⟨c7_amended_incomplete_group_reporting.1 cfgC7w {} "SERIAL_TX" 4 "A02"
     (by decide) (by decide),
   c7_amended_incomplete_group_reporting.2.1 cfgC7w {} "I2C_SCL" 2 "B10"
     (by decide) (by decide),
   c7_amended_incomplete_group_reporting.2.2.2 cfgC7 {} (by decide)⟩

/-- Configuration of the C4 counterexample: UART group with logical
index 2 whose pins reach USART1 in the capability table. -/
def cfgC4 : BetaflightConfig where
  resources := fun t =>
    if t = "SERIAL_TX" then [{ resource_type := "SERIAL_TX", index := 2, pin := "A09" }]
    else if t = "SERIAL_RX" then [{ resource_type := "SERIAL_RX", index := 2, pin := "A10" }]
    else []
  timers := []

/-- Capability table of the C4 counterexample: the TX and RX pins map
to USART1 only. -/
def pmC4 : PeripheralPinMap where
  uart_pins := [{ pin := "PA_9", uart := "USART1", signal := "TX" },
                { pin := "PA_10", uart := "USART1", signal := "RX" }]

/-- C4 (counterexample): `validate_uarts` validates logical UART index
2 against USART1 — the instance the TX pin reaches in the capability
table — and accepts it, instead of validating against an instance named
with suffix 2 as the claim requires. -/
theorem c4_counterexample_uart_target_from_pin :
    (validate_uarts cfgC4 pmC4).1 =
      [{ uart_num := 2, uart_name := "USART1", tx := "PA_9", rx := "PA_10" }] ∧
    "USART1" ≠ "USART2" := by
  decide

/-- Every SPI bus emitted by the validator loop carries the
index-derived target name. -/
theorem validateSpiBusesGo_bus_name (cfg : BetaflightConfig)
    (pm : PeripheralPinMap) :
    ∀ (ns : List Nat) (b : ValidatedSPIBus),
      b ∈ (validateSpiBusesGo cfg pm ns).1 →
      b.bus_name = "SPI" ++ toString b.bus_num := by
  intro ns
  induction ns with
  | nil => intro b hb; simp [validateSpiBusesGo] at hb
  | cons n rest ih =>
    intro b hb
    simp only [validateSpiBusesGo, List.mem_append] at hb
    rcases hb with hb | hb
    · simp only [spiBusStep] at hb
      split at hb
      · simp at hb
      · split at hb
        · simp at hb
        · split at hb
          · simp at hb
          · split at hb
            · simp at hb
            · simp at hb
              subst hb
              rfl
    · exact ih b hb

/-- Every I2C bus emitted by the validator loop carries the
index-derived target name. -/
theorem validateI2cBusesGo_bus_name (cfg : BetaflightConfig)
    (pm : PeripheralPinMap) :
    ∀ (ns : List Nat) (b : ValidatedI2CBus),
      b ∈ (validateI2cBusesGo cfg pm ns).1 →
      b.bus_name = "I2C" ++ toString b.bus_num := by
  intro ns
  induction ns with
  | nil => intro b hb; simp [validateI2cBusesGo] at hb
  | cons n rest ih =>
    intro b hb
    simp only [validateI2cBusesGo, List.mem_append] at hb
    rcases hb with hb | hb
    · simp only [i2cBusStep] at hb
      split at hb
      · simp at hb
      · split at hb
        · simp at hb
        · split at hb
          · simp at hb
          · simp at hb
            subst hb
            rfl
    · exact ih b hb

/-- Every UART emitted by the validator loop carries as its name the
capability-table lookup of some TX pin, not an index-derived name. -/
theorem validateUartsGo_uart_name (cfg : BetaflightConfig)
    (pm : PeripheralPinMap) :
    ∀ (ns : List Nat) (u : ValidatedUART),
      u ∈ (validateUartsGo cfg pm ns).1 →
      ∃ txp, pm.get_uart txp "TX" = some u.uart_name := by
  intro ns
  induction ns with
  | nil => intro u hu; simp [validateUartsGo] at hu
  | cons n rest ih =>
    intro u hu
    simp only [validateUartsGo, List.mem_append] at hu
    rcases hu with hu | hu
    · simp only [uartStep] at hu
      split at hu
      · simp at hu
      · rename_i txBf rxBf heqPins
        split at hu
        · simp at hu
        · rename_i first_uart heqU
          split at hu
          · simp at hu
          · split at hu
            · simp at hu
            · simp at hu
              subst hu
              exact ⟨convert_pin_format txBf, heqU⟩
    · exact ih u hu

/-- C4 (amended): the target peripheral instance is index-derived for
SPI and I2C groups — a validated bus of index n has instance name
"SPI"/"I2C" followed by n — but for UART groups the target is the
instance obtained by capability lookup of the TX pin
(`pinmap.get_uart(tx, 'TX')`), not the instance derived from the
logical index. -/
theorem c4_amended_target_instance_derivation :
    (∀ (cfg : BetaflightConfig) (pm : PeripheralPinMap)
      (b : ValidatedSPIBus), b ∈ (validate_spi_buses cfg pm).1 →
        b.bus_name = "SPI" ++ toString b.bus_num) ∧
    (∀ (cfg : BetaflightConfig) (pm : PeripheralPinMap)
      (b : ValidatedI2CBus), b ∈ (validate_i2c_buses cfg pm).1 →
        b.bus_name = "I2C" ++ toString b.bus_num) ∧
    (∀ (cfg : BetaflightConfig) (pm : PeripheralPinMap)
      (u : ValidatedUART), u ∈ (validate_uarts cfg pm).1 →
        ∃ txp, pm.get_uart txp "TX" = some u.uart_name) := by
  refine ⟨?_, ?_, ?_⟩
  · intro cfg pm b hb
    exact validateSpiBusesGo_bus_name cfg pm _ b hb
  · intro cfg pm b hb
    exact validateI2cBusesGo_bus_name cfg pm _ b hb
  · intro cfg pm u hu
    exact validateUartsGo_uart_name cfg pm _ u hu

/-- C4 (witness): the amended theorem applied to the concrete validated
UART of the counterexample configuration. -/
theorem c4_amended_target_instance_derivation_witness :
    ∃ txp, pmC4.get_uart txp "TX" =
      some ({ uart_num := 2, uart_name := "USART1", tx := "PA_9",
              rx := "PA_10" } : ValidatedUART).uart_name :=
  c4_amended_target_instance_derivation.2.2 cfgC4 pmC4
    { uart_num := 2, uart_name := "USART1", tx := "PA_9", rx := "PA_10" }
    (by decide)

/-- C5: a motor whose timer assignment the capability table confirms
(for the asserted timer and alternate-function code) but whose
annotation channel disagrees with the capability-derived channel is
still validated, with the capability-derived channel as ground truth,
and contributes exactly one warning — citing the channel mismatch — and
no error.  The Python truthiness guard requires the annotation channel
to be non-zero for the comparison to run at all. -/
theorem c5_channel_mismatch_is_warning_only (cfg : BetaflightConfig)
    (pm : PeripheralPinMap) (rt : String) (i : Nat) (pinbf : String)
    (ta : TimerAssignment) (ch c : Nat)
    (hres : cfg.get_resources "MOTOR" =
      [{ resource_type := rt, index := i, pin := pinbf }])
    (hta : dictFind pinbf cfg.timers = some ta)
    (hvt : pm.validate_timer (convert_pin_format pinbf) ta.timer ta.af = some ch)
    (hc : ta.channel = some c) (hc0 : c ≠ 0) (hne : ch ≠ c) :
    validate_motors cfg pm =
      ([{ index := i, pin_bf := pinbf,
          pin_arduino := convert_pin_format pinbf,
          timer := ta.timer, channel := ch, af := ta.af }],
       [],
       [{ severity := "warning",
          message := s!"Motor {i}: Expected CH{c}, found CH{ch}",
          resource := some ("MOTOR_" ++ toString i), pin := some pinbf }]) := by
  unfold validate_motors BetaflightConfig.get_motors
  rw [hres]
  simp [validateMotorsGo, motorStep, hta, hvt, hc, hc0, hne]

/-- Configuration of the C5 witness: motor 1 on pin B04 with an
annotation claiming channel 2. -/
def cfgC5w : BetaflightConfig where
  resources := fun t =>
    if t = "MOTOR" then [{ resource_type := "MOTOR", index := 1, pin := "B04" }]
    else []
  timers := [("B04", { pin := "B04", af := 2, timer := some "TIM3",
                       channel := some 2 })]

/-- Capability table of the C5 witness: the converted pin supports TIM3
on AF2 with channel 1, disagreeing with the annotation's channel 2. -/
def pmC5w : PeripheralPinMap where
  timer_pins := [{ pin := "PB_4", timer := "TIM3", af := 2, channel := 1,
                   is_complementary := false }]

/-- C5 (witness): the mismatch theorem at the concrete motor — accepted
with capability channel 1 and exactly one warning. -/
theorem c5_channel_mismatch_is_warning_only_witness :
    validate_motors cfgC5w pmC5w =
      ([{ index := 1, pin_bf := "B04", pin_arduino := "PB_4",
          timer := some "TIM3", channel := 1, af := 2 }],
       [],
       [{ severity := "warning", message := "Motor 1: Expected CH2, found CH1",
          resource := some "MOTOR_1", pin := some "B04" }]) :=
  c5_channel_mismatch_is_warning_only cfgC5w pmC5w "MOTOR" 1 "B04"
    { pin := "B04", af := 2, timer := some "TIM3", channel := some 2 } 1 2
    (by decide) (by decide) (by decide) (by decide) (by decide) (by decide)

/-- Lookup after the in-place bank append of `group_motors_by_timer`:
the bank of the motor's timer gains the motor at its end, every other
bank is unchanged. -/
theorem dictFind_bankAppend (m : ValidatedMotor)
    (banks : List (Option String × List ValidatedMotor)) (k : Option String) :
    dictFind k (bankAppend m banks) =
      (dictFind k banks).map fun l => if k = m.timer then l ++ [m] else l := by
  induction banks with
  | nil => simp [bankAppend, dictFind]
  | cons e rest ih =>
    obtain ⟨k2, l2⟩ := e
    by_cases h1 : k2 = m.timer
    · by_cases h2 : k = k2
      · subst h2
        simp [bankAppend, dictFind, h1]
      · have hk : k ≠ m.timer := fun hh => h2 (hh.trans h1.symm)
        simp only [bankAppend, if_pos h1, dictFind, if_neg h2]
        cases dictFind k rest <;> simp [hk]
    · by_cases h2 : k = k2
      · subst h2
        simp [bankAppend, dictFind, h1]
      · simp [bankAppend, dictFind, h1, h2, ih]

/-- Lookup after creating a fresh bank at the end of the dictionary. -/
theorem dictFind_append_new (banks : List (Option String × List ValidatedMotor))
    (t k : Option String) (l : List ValidatedMotor) :
    dictFind k (banks ++ [(t, l)]) =
      match dictFind k banks with
      | some v => some v
      | none => if k = t then some l else none := by
  induction banks with
  | nil => simp [dictFind]
  | cons e rest ih =>
    obtain ⟨k2, v2⟩ := e
    by_cases h : k = k2 <;> simp [dictFind, h, ih]

/-- Lookup characterization of the grouping fold: the bank of key `k`
collects, behind whatever the accumulator already held for `k`, the
motors of the processed list whose timer equals `k`, in input order. -/
theorem dictFind_group_foldl (ms : List ValidatedMotor) :
    ∀ (banks : List (Option String × List ValidatedMotor)) (k : Option String),
      dictFind k (ms.foldl addMotorToBanks banks) =
        match dictFind k banks with
        | some l => some (l ++ ms.filter fun mo => decide (mo.timer = k))
        | none =>
          if (ms.filter fun mo => decide (mo.timer = k)) = [] then none
          else some (ms.filter fun mo => decide (mo.timer = k)) := by
  induction ms with
  | nil =>
    intro banks k
    cases h : dictFind k banks <;> simp [h]
  | cons m rest ih =>
    intro banks k
    rw [List.foldl_cons, ih]
    have hstep : dictFind k (addMotorToBanks banks m) =
        match dictFind k banks with
        | some l => some (if k = m.timer then l ++ [m] else l)
        | none => if k = m.timer then some [m] else none := by
      unfold addMotorToBanks
      by_cases hs : (dictFind m.timer banks).isSome
      · rw [if_pos hs, dictFind_bankAppend]
        cases hfk : dictFind k banks with
        | some l => simp [hfk]
        | none =>
          by_cases hkt : k = m.timer
          · exfalso
            rw [← hkt, hfk] at hs
            simp at hs
          · simp [hfk, hkt]
      · rw [if_neg hs, dictFind_append_new]
        cases hfk : dictFind k banks with
        | some l =>
          by_cases hkt : k = m.timer
          · exfalso
            apply hs
            rw [← hkt, hfk]
            rfl
          · simp [hfk, hkt]
        | none => simp [hfk]
    rw [hstep]
    cases hfk : dictFind k banks with
    | some l =>
      by_cases hkt : k = m.timer
      · simp [List.filter_cons, hkt, List.append_assoc]
      · simp [List.filter_cons, hkt,
          show ¬ m.timer = k from fun hh => hkt hh.symm]
    | none =>
      by_cases hkt : k = m.timer
      · simp [List.filter_cons, hkt]
      · simp [List.filter_cons, hkt,
          show ¬ m.timer = k from fun hh => hkt hh.symm]

/-- Lookup in the result of `group_motors_by_timer`: the bank of key
`k` is exactly the input's subsequence of motors with that timer, and
only nonempty banks exist. -/
theorem dictFind_group (ms : List ValidatedMotor) (k : Option String) :
    dictFind k (group_motors_by_timer ms) =
      if (ms.filter fun mo => decide (mo.timer = k)) = [] then none
      else some (ms.filter fun mo => decide (mo.timer = k)) := by
  unfold group_motors_by_timer
  rw [dictFind_group_foldl]
  simp [dictFind]

/-- C8 (counterexample): `group_motors_by_timer` preserves input order
inside each bank, so an input whose same-timer motors arrive as index 2
before index 1 produces a bank that is not ordered by ascending logical
index, contradicting the claim for an arbitrary input list. -/
theorem c8_counterexample_group_keeps_input_order :
    dictFind (some "TIM1")
        (group_motors_by_timer
          [{ index := 2, pin_bf := "A08", pin_arduino := "PA_8",
             timer := some "TIM1", channel := 1, af := 1 },
           { index := 1, pin_bf := "A09", pin_arduino := "PA_9",
             timer := some "TIM1", channel := 2, af := 1 }]) =
      some [{ index := 2, pin_bf := "A08", pin_arduino := "PA_8",
              timer := some "TIM1", channel := 1, af := 1 },
            { index := 1, pin_bf := "A09", pin_arduino := "PA_9",
              timer := some "TIM1", channel := 2, af := 1 }] ∧
    ¬ List.Pairwise
        (fun a b : ValidatedMotor => a.index ≤ b.index)
        [{ index := 2, pin_bf := "A08", pin_arduino := "PA_8",
           timer := some "TIM1", channel := 1, af := 1 },
         { index := 1, pin_bf := "A09", pin_arduino := "PA_9",
           timer := some "TIM1", channel := 2, af := 1 }] := by
  constructor
  · decide
  · intro hp
    rw [List.pairwise_cons] at hp
    have h2 := hp.1
      { index := 1, pin_bf := "A09", pin_arduino := "PA_9",
        timer := some "TIM1", channel := 2, af := 1 } (by simp)
    simp at h2

/-- C8 (amended): `group_motors_by_timer` is a stable exhaustive
partition — every bank is exactly the input's filtered subsequence for
its timer key (so the union of the banks is the input set and each
motor lands in precisely the bank of its own timer), banks are never
empty, and each bank preserves the input's relative order; a bank is
ordered by ascending logical index whenever the input list itself is
(the validator produces motors in resource order, which is not sorted
in general). -/
theorem c8_amended_stable_partition (ms : List ValidatedMotor)
    (k : Option String) :
    (∀ l, dictFind k (group_motors_by_timer ms) = some l →
      l = ms.filter (fun mo => decide (mo.timer = k)) ∧ l ≠ []) ∧
    (dictFind k (group_motors_by_timer ms) = none →
      ms.filter (fun mo => decide (mo.timer = k)) = []) ∧
    (∀ mo ∈ ms, ∃ l,
      dictFind mo.timer (group_motors_by_timer ms) = some l ∧ mo ∈ l) ∧
    (List.Pairwise (fun a b => a.index ≤ b.index) ms →
      ∀ l, dictFind k (group_motors_by_timer ms) = some l →
        List.Pairwise (fun a b => a.index ≤ b.index) l) := by
  refine ⟨?_, ?_, ?_, ?_⟩
  · intro l hl
    rw [dictFind_group] at hl
    by_cases hf : (ms.filter fun mo => decide (mo.timer = k)) = []
    · rw [if_pos hf] at hl
      exact absurd hl (by simp)
    · rw [if_neg hf] at hl
      cases hl
      exact ⟨rfl, hf⟩
  · intro hl
    rw [dictFind_group] at hl
    by_cases hf : (ms.filter fun mo => decide (mo.timer = k)) = []
    · exact hf
    · rw [if_neg hf] at hl
      exact absurd hl (by simp)
  · intro mo hmo
    have hmem : mo ∈ ms.filter (fun m2 => decide (m2.timer = mo.timer)) := by
      simp [List.mem_filter, hmo]
    have hne : ms.filter (fun m2 => decide (m2.timer = mo.timer)) ≠ [] := by
      intro hh
      rw [hh] at hmem
      simp at hmem
    refine ⟨_, ?_, hmem⟩
    rw [dictFind_group, if_neg hne]
  · intro hsorted l hl
    rw [dictFind_group] at hl
    by_cases hf : (ms.filter fun mo => decide (mo.timer = k)) = []
    · rw [if_pos hf] at hl
      exact absurd hl (by simp)
    · rw [if_neg hf] at hl
      cases hl
      exact List.Pairwise.sublist (List.filter_sublist ms) hsorted

/-- Input of the C8 witness: two TIM1 motors already in ascending index
order. -/
def msC8w : List ValidatedMotor :=
  [{ index := 1, pin_bf := "A08", pin_arduino := "PA_8",
     timer := some "TIM1", channel := 1, af := 1 },
   { index := 2, pin_bf := "A09", pin_arduino := "PA_9",
     timer := some "TIM1", channel := 2, af := 1 }]

/-- C8 (witness): the partition theorem at the concrete sorted input —
its first motor lands in the TIM1 bank, and the bank of a sorted input
is sorted. -/
theorem c8_amended_stable_partition_witness :
    (∃ l, dictFind (some "TIM1") (group_motors_by_timer msC8w) = some l ∧
      ({ index := 1, pin_bf := "A08", pin_arduino := "PA_8",
         timer := some "TIM1", channel := 1, af := 1 } : ValidatedMotor) ∈ l) ∧
    List.Pairwise (fun a b : ValidatedMotor => a.index ≤ b.index) msC8w :=
  ⟨(c8_amended_stable_partition msC8w (some "TIM1")).2.2.1
     { index := 1, pin_bf := "A08", pin_arduino := "PA_8",
       timer := some "TIM1", channel := 1, af := 1 } (by decide),
   (c8_amended_stable_partition msC8w (some "TIM1")).2.2.2
     (by decide) msC8w (by decide)⟩

/-- SPI pin-group assembly reads only the SPI_MOSI, SPI_MISO and
SPI_SCK resource lists. -/
theorem get_spi_pins_congr (cfg1 cfg2 : BetaflightConfig)
    (h : ∀ t, t ≠ "SERVO" → cfg1.resources t = cfg2.resources t) (n : Nat) :
    cfg1.get_spi_pins n = cfg2.get_spi_pins n := by
  unfold BetaflightConfig.get_spi_pins lastIndexedPin
    BetaflightConfig.get_resources
  rw [h "SPI_MOSI" (by decide), h "SPI_MISO" (by decide),
    h "SPI_SCK" (by decide)]

/-- I2C pin-group assembly reads only the I2C_SCL and I2C_SDA resource
lists. -/
theorem get_i2c_pins_congr (cfg1 cfg2 : BetaflightConfig)
    (h : ∀ t, t ≠ "SERVO" → cfg1.resources t = cfg2.resources t) (n : Nat) :
    cfg1.get_i2c_pins n = cfg2.get_i2c_pins n := by
  unfold BetaflightConfig.get_i2c_pins lastIndexedPin
    BetaflightConfig.get_resources
  rw [h "I2C_SCL" (by decide), h "I2C_SDA" (by decide)]

/-- UART pin-group assembly reads only the SERIAL_TX and SERIAL_RX
resource lists. -/
theorem get_uart_pins_congr (cfg1 cfg2 : BetaflightConfig)
    (h : ∀ t, t ≠ "SERVO" → cfg1.resources t = cfg2.resources t) (n : Nat) :
    cfg1.get_uart_pins n = cfg2.get_uart_pins n := by
  unfold BetaflightConfig.get_uart_pins lastIndexedPin
    BetaflightConfig.get_resources
  rw [h "SERIAL_TX" (by decide), h "SERIAL_RX" (by decide)]

/-- Motor validation reads only the MOTOR resources and the timers
map. -/
theorem validate_motors_congr (cfg1 cfg2 : BetaflightConfig)
    (pm : PeripheralPinMap)
    (h : ∀ t, t ≠ "SERVO" → cfg1.resources t = cfg2.resources t)
    (ht : cfg1.timers = cfg2.timers) :
    validate_motors cfg1 pm = validate_motors cfg2 pm := by
  unfold validate_motors BetaflightConfig.get_motors
    BetaflightConfig.get_resources
  rw [h "MOTOR" (by decide), ht]

/-- SPI bus validation reads only the SPI resource lists. -/
theorem validate_spi_buses_congr (cfg1 cfg2 : BetaflightConfig)
    (pm : PeripheralPinMap)
    (h : ∀ t, t ≠ "SERVO" → cfg1.resources t = cfg2.resources t) :
    validate_spi_buses cfg1 pm = validate_spi_buses cfg2 pm := by
  have hstep : ∀ n, spiBusStep cfg1 pm n = spiBusStep cfg2 pm n := by
    intro n
    unfold spiBusStep
    rw [get_spi_pins_congr cfg1 cfg2 h n]
  have hgo : ∀ ns, validateSpiBusesGo cfg1 pm ns = validateSpiBusesGo cfg2 pm ns := by
    intro ns
    induction ns with
    | nil => rfl
    | cons n rest ih => simp [validateSpiBusesGo, hstep n, ih]
  unfold validate_spi_buses BetaflightConfig.get_resources
  rw [h "SPI_SCK" (by decide), hgo]

/-- I2C bus validation reads only the I2C resource lists. -/
theorem validate_i2c_buses_congr (cfg1 cfg2 : BetaflightConfig)
    (pm : PeripheralPinMap)
    (h : ∀ t, t ≠ "SERVO" → cfg1.resources t = cfg2.resources t) :
    validate_i2c_buses cfg1 pm = validate_i2c_buses cfg2 pm := by
  have hstep : ∀ n, i2cBusStep cfg1 pm n = i2cBusStep cfg2 pm n := by
    intro n
    unfold i2cBusStep
    rw [get_i2c_pins_congr cfg1 cfg2 h n]
  have hgo : ∀ ns, validateI2cBusesGo cfg1 pm ns = validateI2cBusesGo cfg2 pm ns := by
    intro ns
    induction ns with
    | nil => rfl
    | cons n rest ih => simp [validateI2cBusesGo, hstep n, ih]
  unfold validate_i2c_buses BetaflightConfig.get_resources
  rw [h "I2C_SCL" (by decide), hgo]

/-- UART validation reads only the SERIAL resource lists. -/
theorem validate_uarts_congr (cfg1 cfg2 : BetaflightConfig)
    (pm : PeripheralPinMap)
    (h : ∀ t, t ≠ "SERVO" → cfg1.resources t = cfg2.resources t) :
    validate_uarts cfg1 pm = validate_uarts cfg2 pm := by
  have hstep : ∀ n, uartStep cfg1 pm n = uartStep cfg2 pm n := by
    intro n
    unfold uartStep
    rw [get_uart_pins_congr cfg1 cfg2 h n]
  have hgo : ∀ ns, validateUartsGo cfg1 pm ns = validateUartsGo cfg2 pm ns := by
    intro ns
    induction ns with
    | nil => rfl
    | cons n rest ih => simp [validateUartsGo, hstep n, ih]
  unfold validate_uarts BetaflightConfig.get_resources
  rw [h "SERIAL_TX" (by decide), hgo]

/-- C10: the overall acceptance signal is noninterferent with SERVO
resources — two configurations identical except for their SERVO
resource entries produce the same `validate_all` result (same boolean,
same errors, same warnings), because `validate_all` runs only the
motor, SPI, I2C and UART validators and none of them reads the SERVO
resources; and `validate_servos` cannot run successfully on any
configuration, since its first step calls the accessor `get_servos`
that `BetaflightConfig` does not define, raising `AttributeError`. -/
theorem c10_servo_noninterference :
    (∀ (cfg1 cfg2 : BetaflightConfig) (pm : PeripheralPinMap),
      (∀ t, t ≠ "SERVO" → cfg1.resources t = cfg2.resources t) →
      cfg1.timers = cfg2.timers →
      validate_all cfg1 pm = validate_all cfg2 pm) ∧
    (∀ (cfg : BetaflightConfig) (pm : PeripheralPinMap),
      validate_servos cfg pm =
        Except.error
          "AttributeError: BetaflightConfig has no attribute get_servos") := by
  constructor
  · intro cfg1 cfg2 pm h ht
    unfold validate_all
    rw [validate_motors_congr cfg1 cfg2 pm h ht,
      validate_spi_buses_congr cfg1 cfg2 pm h,
      validate_i2c_buses_congr cfg1 cfg2 pm h,
      validate_uarts_congr cfg1 cfg2 pm h]
  · intro cfg pm
    rfl

/-- Configurations of the C10 witness: identical except that the first
declares a SERVO resource. -/
def cfgC10a : BetaflightConfig where
  resources := fun t =>
    if t = "SERVO" then [{ resource_type := "SERVO", index := 1, pin := "A00" }]
    else if t = "MOTOR" then [{ resource_type := "MOTOR", index := 1, pin := "B04" }]
    else []
  timers := []

/-- Second configuration of the C10 witness: no SERVO resource. -/
def cfgC10b : BetaflightConfig where
  resources := fun t =>
    if t = "MOTOR" then [{ resource_type := "MOTOR", index := 1, pin := "B04" }]
    else []
  timers := []

/-- C10 (witness): the noninterference theorem applied to the concrete
pair, and the servo-validator failure at a concrete configuration. -/
theorem c10_servo_noninterference_witness :
    validate_all cfgC10a ({} : PeripheralPinMap) =
      validate_all cfgC10b ({} : PeripheralPinMap) ∧
    validate_servos cfgC10b ({} : PeripheralPinMap) =
      Except.error
        "AttributeError: BetaflightConfig has no attribute get_servos" :=
  ⟨c10_servo_noninterference.1 cfgC10a cfgC10b {}
     (by
       intro t ht
       show (if t = "SERVO" then _ else _) = _
       rw [if_neg ht]
       rfl)
     rfl,
   c10_servo_noninterference.2 cfgC10b {}⟩
